import Mathlib

/-!
Shallow embedding of the adaptive 2AFC threshold-measurement engine of
LinesLengthJNDThreshold.py: the level set, the stimulus-pair generator,
the response scorer, the adaptive stimulus selector, and the Next-button
session state machine.  Randomness (Python random.choice and
np.random.choice) and the external maximum-likelihood fit (MLE_search)
are modelled as explicitly injected data: each draw is an extra argument,
and the fit outcome is a value of type FitResult carried by the click
event.  Numeric values are rationals; the counters NumCorrect and Total
are lists of rationals (numpy float arrays in the source, holding only
small half-integers here).
-/

namespace LinesJND

/-- Which line receives the extra length, and the participant's answer. -/
inductive Side where
  | A
  | B
  deriving DecidableEq

/-- Ground truth of a trial: line A longer, line B longer, or equal. -/
inductive Truth where
  | A
  | B
  | Equal
  deriving DecidableEq

/-- Outcome of MLE_search: success with fitted alpha and beta, or failure. -/
inductive FitResult where
  | success (alpha beta : ℚ)
  | failure
  deriving DecidableEq

/-- MaxTrials = 30. -/
def MaxTrials : ℕ := 30

/-- MinTrials = 0.30 * MaxTrials. -/
def MinTrials : ℚ := 0.30 * (MaxTrials : ℚ)

/-- StimLevels = np.arange(0, 15, 1). -/
def StimLevels : List ℚ := (List.range 15).map (fun n => (n : ℚ))

/-- size_base = 150, the baseline length of both lines. -/
def size_base : ℚ := 150

/-- NewLinesLengths: both lines start at the baseline and the extra length
is added to the side given by the coin flip (random.choice of A or B). -/
def NewLinesLengths (sb sa : ℚ) (coin : Side) : ℚ × ℚ :=
  match coin with
  | Side.A => (sb + sa, sb)
  | Side.B => (sb, sb + sa)

/-- Minimum value of a list, as np.min over a nonempty array. -/
def minList : List ℚ → ℚ
  | [] => 0
  | [x] => x
  | x :: y :: rest => min x (minList (y :: rest))

/-- np.argmin: index of the first occurrence of the minimum value (ties
resolved to the lowest index). -/
def firstMinIdx : List ℚ → ℕ
  | [] => 0
  | [_] => 0
  | x :: y :: rest =>
      if x ≤ minList (y :: rest) then 0 else firstMinIdx (y :: rest) + 1

/-- Index of the stimulus level closest to alpha, ties to the lowest
index: firstMinIdx applied to abs(StimLevels - alpha). -/
def nearestIdx (levels : List ℚ) (alpha : ℚ) : ℕ :=
  firstMinIdx (levels.map (fun l => |l - alpha|))

/-- Clamping of the jittered index: if below 0 take 0, if above L-1 take
L-1, mirroring the two if branches after the np.random.choice draw. -/
def clampIdx (L : ℕ) (i : ℤ) : ℕ :=
  if i < 0 then 0
  else if i > (L : ℤ) - 1 then L - 1
  else i.toNat

/-- ADAPTIVE jitter: np.random.choice over np.arange(n-2, n+3) picks the
candidate n - 2 + r for a uniform r in Fin 5; the result is then clamped. -/
def adaptIdx (L n : ℕ) (r : Fin 5) : ℕ :=
  clampIdx L ((n : ℤ) - 2 + (r : ℤ))

/-- Number of the five equiprobable jitter draws that land on index j. -/
def adaptHits (L n j : ℕ) : ℕ :=
  (List.finRange 5).countP (fun r => adaptIdx L n r == j)

/-- The closed window [n-2, n+2] intersected with [0, L-1]. -/
def clampedWindow (L n : ℕ) : List ℕ :=
  (List.range L).filter (fun j => decide (n - 2 ≤ j) && decide (j ≤ n + 2))

/-- The distribution property claimed of the ADAPTIVE draw: every index of
the clamped window receives the same number of the five jitter draws. -/
def UniformOnWindow (n : ℕ) : Prop :=
  ∀ j ∈ clampedWindow 15 n, ∀ k ∈ clampedWindow 15 n,
    adaptHits 15 n j = adaptHits 15 n k

/-- The stimulus-index computation of GetNextLengths: random during the
first MinTrials trials; afterwards, nearest-to-alpha plus jitter when the
fit succeeds, random again when it fails.  randIdx models
random.choice(range(len(StimLevels))), randJit the np.random.choice jitter
draw. -/
def GetNextStimIndex (counter : ℕ) (fit : FitResult)
    (randIdx : Fin 15) (randJit : Fin 5) : ℕ :=
  if (counter : ℚ) < MinTrials then (randIdx : ℕ)
  else
    match fit with
    | FitResult.success alpha _ => adaptIdx 15 (nearestIdx StimLevels alpha) randJit
    | FitResult.failure => (randIdx : ℕ)

/-- GetNextLengths: the pair of line lengths for the selected level. -/
def GetNextLengths (counter : ℕ) (fit : FitResult)
    (randIdx : Fin 15) (randJit : Fin 5) (coin : Side) : ℚ × ℚ :=
  NewLinesLengths size_base
    (StimLevels.getD (GetNextStimIndex counter fit randIdx randJit) 0) coin

/-- Numpy fancy-index update: xs[np.where(levels == v)] += inc adds inc to
xs at exactly the positions whose level equals v (a no-op when v is
absent from levels). -/
def npAddWhere (levels xs : List ℚ) (v inc : ℚ) : List ℚ :=
  List.zipWith (fun l x => if l = v then x + inc else x) levels xs

/-- Ground truth of the presented pair, from the two line lengths. -/
def groundTruth (a b : ℚ) : Truth :=
  if a > b then Truth.A
  else if b > a then Truth.B
  else Truth.Equal

/-- The participant's answer as a Truth value, for the comparison
correct == choice. -/
def truthOfSide : Side → Truth
  | Side.A => Truth.A
  | Side.B => Truth.B

/-- UpdateResultsVariablesByChoice as a pure function of the last
presented pair, the last recorded choice, and the two counter vectors:
Total gains 1 at the index of abs(a - b) in StimLevels; NumCorrect gains
1 there when the answer matches the ground truth, 0.5 when the ground
truth is Equal, and nothing otherwise.  Returns (NumCorrect, Total). -/
def UpdateResultsVariablesByChoice (a b : ℚ) (ch : Side)
    (NumCorrect Total : List ℚ) : List ℚ × List ℚ :=
  ( if groundTruth a b = truthOfSide ch then
      npAddWhere StimLevels NumCorrect (|a - b|) 1
    else if groundTruth a b = Truth.Equal then
      npAddWhere StimLevels NumCorrect (|a - b|) (1/2)
    else NumCorrect,
    npAddWhere StimLevels Total (|a - b|) 1 )

/-- One Next-button click event: the state of the A/B radio selection at
click time (none when no option is selected), and the injected random and
fit data consumed if a new pair is presented. -/
structure Click where
  choice : Option Side
  fit : FitResult
  randIdx : Fin 15
  randJit : Fin 5
  coin : Side

/-- The mutable session state: root.counter, the choice list, the two
line-length lists, the two counter vectors, and whether the experiment
has ended (widgets hidden, results plotted). -/
structure SessionState where
  counter : ℕ
  choices : List Side
  lineA : List ℚ
  lineB : List ℚ
  NumCorrect : List ℚ
  Total : List ℚ
  finished : Bool

/-- NextCallback: the counter is incremented first; with no option
selected nothing else happens; otherwise the choice is recorded, the
scorer runs on the last presented pair, and either a new pair is
presented (counter below MaxTrials) or the session finishes.  After
finishing the button is hidden, so a finished state absorbs clicks. -/
def NextCallback (s : SessionState) (e : Click) : SessionState :=
  if s.finished then s
  else
    let c := s.counter + 1
    match e.choice with
    | none => { s with counter := c }
    | some ch =>
      let r := UpdateResultsVariablesByChoice
        (s.lineA.getLastD 0) (s.lineB.getLastD 0) ch s.NumCorrect s.Total
      if c < MaxTrials then
        let p := GetNextLengths c e.fit e.randIdx e.randJit e.coin
        { s with counter := c, choices := s.choices ++ [ch],
                 NumCorrect := r.1, Total := r.2,
                 lineA := s.lineA ++ [p.1], lineB := s.lineB ++ [p.2] }
      else
        { s with counter := c, choices := s.choices ++ [ch],
                 NumCorrect := r.1, Total := r.2, finished := true }

/-- The state right after InitialiseLines: counter 0, empty records, the
first pair generated from a uniformly drawn level, zero counter vectors. -/
def initState (i0 : Fin 15) (coin0 : Side) : SessionState :=
  { counter := 0, choices := [],
    lineA := [(NewLinesLengths size_base (StimLevels.getD i0 0) coin0).1],
    lineB := [(NewLinesLengths size_base (StimLevels.getD i0 0) coin0).2],
    NumCorrect := List.replicate 15 0,
    Total := List.replicate 15 0,
    finished := false }

/-- Folding a sequence of click events through NextCallback. -/
def runClicks (s : SessionState) (es : List Click) : SessionState :=
  es.foldl NextCallback s

/-- A state is reachable when some initial draw and click sequence
produce it. -/
def Reachable (s : SessionState) : Prop :=
  ∃ (i0 : Fin 15) (c0 : Side) (es : List Click),
    s = runClicks (initState i0 c0) es

/-- A click with no radio option selected. -/
def emptyClick : Click :=
  { choice := none, fit := FitResult.failure, randIdx := 0, randJit := 0,
    coin := Side.A }

/-- A click answering A, with fit failure and zero random draws. -/
def validClickA : Click :=
  { choice := some Side.A, fit := FitResult.failure, randIdx := 0,
    randJit := 0, coin := Side.A }

/-- Twenty-nine identical valid clicks. -/
def clicks29 : List Click := List.replicate 29 validClickA

instance (n : ℕ) : Decidable (UniformOnWindow n) :=
  inferInstanceAs (Decidable (∀ j ∈ clampedWindow 15 n, ∀ k ∈ clampedWindow 15 n,
    adaptHits 15 n j = adaptHits 15 n k))

lemma StimLevels_length : StimLevels.length = 15 := rfl

lemma minList_mem : ∀ (l : List ℚ), l ≠ [] → minList l ∈ l := by
  intro l
  induction l with
  | nil => intro h; exact absurd rfl h
  | cons x xs ih =>
    intro _
    cases xs with
    | nil => simp [minList]
    | cons y rest =>
      have hm : minList (y :: rest) ∈ y :: rest := ih (by simp)
      show min x (minList (y :: rest)) ∈ x :: y :: rest
      rcases le_total x (minList (y :: rest)) with h | h
      · rw [min_eq_left h]
        exact List.mem_cons_self x _
      · rw [min_eq_right h]
        exact List.mem_cons_of_mem x hm

lemma firstMinIdx_lt : ∀ (l : List ℚ), l ≠ [] → firstMinIdx l < l.length := by
  intro l
  induction l with
  | nil => intro h; exact absurd rfl h
  | cons x xs ih =>
    intro _
    cases xs with
    | nil => simp [firstMinIdx]
    | cons y rest =>
      show (if x ≤ minList (y :: rest) then 0 else firstMinIdx (y :: rest) + 1)
        < (x :: y :: rest).length
      split
      · simp
      · have hlt := ih (by simp)
        simp only [List.length_cons] at hlt ⊢
        omega

lemma nearestIdx_lt (alpha : ℚ) : nearestIdx StimLevels alpha < 15 := by
  have h3 : (StimLevels.map (fun l => |l - alpha|)).length = 15 := by
    rw [List.length_map, StimLevels_length]
  have h : (StimLevels.map (fun l => |l - alpha|)) ≠ [] := by
    apply List.ne_nil_of_length_pos
    rw [h3]
    norm_num
  have h2 := firstMinIdx_lt _ h
  rw [h3] at h2
  exact h2

lemma npAddWhere_length (levels xs : List ℚ) (v inc : ℚ) :
    (npAddWhere levels xs v inc).length = min levels.length xs.length := by
  simp [npAddWhere]

lemma npAddWhere_getD : ∀ (levels xs : List ℚ) (v inc : ℚ) (j : ℕ),
    j < levels.length → j < xs.length →
    (npAddWhere levels xs v inc).getD j 0 =
      if levels.getD j 0 = v then xs.getD j 0 + inc else xs.getD j 0 := by
  intro levels
  induction levels with
  | nil => intro xs v inc j h1 _; simp at h1
  | cons l ls ih =>
    intro xs v inc j h1 h2
    cases xs with
    | nil => simp at h2
    | cons x xs2 =>
      cases j with
      | zero => simp [npAddWhere]
      | succ n =>
        have h1n : n < ls.length := by simpa using h1
        have h2n : n < xs2.length := by simpa using h2
        have := ih xs2 v inc n h1n h2n
        simpa [npAddWhere] using this

lemma getD_replicate_zero (n i : ℕ) : (List.replicate n (0:ℚ)).getD i 0 = 0 := by
  induction n generalizing i with
  | zero => simp
  | succ m ih =>
    cases i with
    | zero => simp [List.replicate_succ]
    | succ k => simp [List.replicate_succ, ih]

lemma scorer_total_getD (a b : ℚ) (ch : Side) (NC T : List ℚ) (hT : T.length = 15)
    (j : ℕ) (hj : j < 15) :
    (UpdateResultsVariablesByChoice a b ch NC T).2.getD j 0 =
      if StimLevels.getD j 0 = |a - b| then T.getD j 0 + 1 else T.getD j 0 := by
  have := npAddWhere_getD StimLevels T (|a - b|) 1 j
    (by rw [StimLevels_length]; exact hj) (by rw [hT]; exact hj)
  simpa [UpdateResultsVariablesByChoice] using this

lemma scorer_nc_getD (a b : ℚ) (ch : Side) (NC T : List ℚ) (hNC : NC.length = 15)
    (j : ℕ) (hj : j < 15) :
    (UpdateResultsVariablesByChoice a b ch NC T).1.getD j 0 =
      if StimLevels.getD j 0 = |a - b| then
        NC.getD j 0 +
          (if groundTruth a b = truthOfSide ch then 1
           else if groundTruth a b = Truth.Equal then (1/2 : ℚ) else 0)
      else NC.getD j 0 := by
  have hj1 : j < StimLevels.length := by rw [StimLevels_length]; exact hj
  have hj2 : j < NC.length := by rw [hNC]; exact hj
  simp only [UpdateResultsVariablesByChoice]
  by_cases h1 : groundTruth a b = truthOfSide ch
  · simp only [if_pos h1]
    exact npAddWhere_getD StimLevels NC (|a - b|) 1 j hj1 hj2
  · by_cases h2 : groundTruth a b = Truth.Equal
    · simp only [if_neg h1, if_pos h2]
      exact npAddWhere_getD StimLevels NC (|a - b|) (1/2) j hj1 hj2
    · simp only [if_neg h1, if_neg h2]
      split <;> simp

lemma scorer_lengths (a b : ℚ) (ch : Side) (NC T : List ℚ)
    (hNC : NC.length = 15) (hT : T.length = 15) :
    (UpdateResultsVariablesByChoice a b ch NC T).1.length = 15 ∧
    (UpdateResultsVariablesByChoice a b ch NC T).2.length = 15 := by
  constructor
  · simp only [UpdateResultsVariablesByChoice]
    split
    · simp [npAddWhere_length, StimLevels_length, hNC]
    · split
      · simp [npAddWhere_length, StimLevels_length, hNC]
      · exact hNC
  · simp [UpdateResultsVariablesByChoice, npAddWhere_length, StimLevels_length, hT]

lemma scoreInc_nonneg (a b : ℚ) (ch : Side) :
    0 ≤ (if groundTruth a b = truthOfSide ch then (1:ℚ)
         else if groundTruth a b = Truth.Equal then 1/2 else 0) := by
  split
  · norm_num
  · split <;> norm_num

lemma scoreInc_le_one (a b : ℚ) (ch : Side) :
    (if groundTruth a b = truthOfSide ch then (1:ℚ)
     else if groundTruth a b = Truth.Equal then 1/2 else 0) ≤ 1 := by
  split
  · norm_num
  · split <;> norm_num

lemma nextCallback_hist (s : SessionState) (e : Click) :
    ((NextCallback s e).NumCorrect = s.NumCorrect ∧ (NextCallback s e).Total = s.Total) ∨
    (∃ ch, e.choice = some ch ∧
      (NextCallback s e).NumCorrect =
        (UpdateResultsVariablesByChoice (s.lineA.getLastD 0) (s.lineB.getLastD 0) ch
          s.NumCorrect s.Total).1 ∧
      (NextCallback s e).Total =
        (UpdateResultsVariablesByChoice (s.lineA.getLastD 0) (s.lineB.getLastD 0) ch
          s.NumCorrect s.Total).2) := by
  unfold NextCallback
  by_cases hf : s.finished = true
  · left
    simp [hf]
  · simp only [hf, if_false]
    cases hch : e.choice with
    | none => left; exact ⟨rfl, rfl⟩
    | some ch =>
      right
      refine ⟨ch, rfl, ?_⟩
      by_cases hc : s.counter + 1 < MaxTrials
      · simp [hc]
      · simp [hc]

/-- The bookkeeping invariant: both counter vectors keep length 15 and
NumCorrect stays within [0, Total] pointwise. -/
def HistInv (s : SessionState) : Prop :=
  s.NumCorrect.length = 15 ∧ s.Total.length = 15 ∧
  ∀ i, i < 15 → 0 ≤ s.NumCorrect.getD i 0 ∧ s.NumCorrect.getD i 0 ≤ s.Total.getD i 0

lemma histInv_init (i0 : Fin 15) (c0 : Side) : HistInv (initState i0 c0) := by
  refine ⟨by simp [initState], by simp [initState], ?_⟩
  intro i _
  have hz := getD_replicate_zero 15 i
  constructor
  · show 0 ≤ (List.replicate 15 (0:ℚ)).getD i 0
    rw [hz]
  · show (List.replicate 15 (0:ℚ)).getD i 0 ≤ (List.replicate 15 (0:ℚ)).getD i 0
    exact le_refl _

lemma histInv_step (s : SessionState) (e : Click) (h : HistInv s) :
    HistInv (NextCallback s e) := by
  obtain ⟨hNC, hT, hB⟩ := h
  rcases nextCallback_hist s e with ⟨h1, h2⟩ | ⟨ch, _, h1, h2⟩
  · refine ⟨?_, ?_, ?_⟩
    · rw [h1]; exact hNC
    · rw [h2]; exact hT
    · intro i hi
      rw [h1, h2]
      exact hB i hi
  · have hlen := scorer_lengths (s.lineA.getLastD 0) (s.lineB.getLastD 0) ch
      s.NumCorrect s.Total hNC hT
    refine ⟨?_, ?_, ?_⟩
    · rw [h1]; exact hlen.1
    · rw [h2]; exact hlen.2
    · intro i hi
      rw [h1, h2, scorer_nc_getD _ _ _ _ _ hNC i hi, scorer_total_getD _ _ _ _ _ hT i hi]
      by_cases hc : StimLevels.getD i 0 = |s.lineA.getLastD 0 - s.lineB.getLastD 0|
      · rw [if_pos hc, if_pos hc]
        obtain ⟨hb0, hb1⟩ := hB i hi
        have hinc0 := scoreInc_nonneg (s.lineA.getLastD 0) (s.lineB.getLastD 0) ch
        have hinc1 := scoreInc_le_one (s.lineA.getLastD 0) (s.lineB.getLastD 0) ch
        constructor
        · linarith
        · linarith
      · rw [if_neg hc, if_neg hc]
        exact hB i hi

lemma runClicks_histInv : ∀ (es : List Click) (s : SessionState),
    HistInv s → HistInv (runClicks s es) := by
  intro es
  induction es with
  | nil => intro s h; exact h
  | cons e rest ih =>
    intro s h
    show HistInv (runClicks (NextCallback s e) rest)
    exact ih (NextCallback s e) (histInv_step s e h)

lemma reachable_histInv (s : SessionState) (h : Reachable s) : HistInv s := by
  obtain ⟨i0, c0, es, rfl⟩ := h
  exact runClicks_histInv es _ (histInv_init i0 c0)

set_option maxRecDepth 10000

/-- Claim C1, evaluation at the failing input: a Next click with no
option selected leaves Total, NumCorrect and the choice record unchanged
but still advances root.counter from 0 to 1, because the counter is
incremented before the choice is checked; the claim states that the
state including root.counter is the same after the click as before. -/
theorem empty_click_advances_counter :
    (initState 0 Side.A).counter = 0 ∧
    (NextCallback (initState 0 Side.A) emptyClick).counter = 1 ∧
    (NextCallback (initState 0 Side.A) emptyClick).Total = (initState 0 Side.A).Total ∧
    (NextCallback (initState 0 Side.A) emptyClick).NumCorrect =
      (initState 0 Side.A).NumCorrect ∧
    (NextCallback (initState 0 Side.A) emptyClick).choices = (initState 0 Side.A).choices :=
  ⟨rfl, rfl, rfl, rfl, rfl⟩

/-- Claim C2, counterexample: with alpha = 0 the nearest index is 0, the
clamped window is [0, 2], yet index 0 receives 3 of the 5 equiprobable
jitter draws while index 1 receives only 1, so the selected index is not
uniform over the clamped window. -/
theorem adaptive_window_not_uniform :
    nearestIdx StimLevels 0 = 0 ∧
    0 ∈ clampedWindow 15 (nearestIdx StimLevels 0) ∧
    1 ∈ clampedWindow 15 (nearestIdx StimLevels 0) ∧
    adaptHits 15 (nearestIdx StimLevels 0) 0 = 3 ∧
    adaptHits 15 (nearestIdx StimLevels 0) 1 = 1 ∧
    ¬ UniformOnWindow (nearestIdx StimLevels 0) := by
  with_unfolding_all decide

/-- Claim C2 as amended: every index of the clamped window has positive
probability, and the distribution is uniform over the clamped window
exactly when the window [nearest-2, nearest+2] lies entirely inside
[0, L-1]; at the boundaries the clamped endpoint absorbs the mass of the
out-of-range candidates. -/
theorem adaptive_window_uniform_iff (alpha : ℚ) :
    (∀ j ∈ clampedWindow 15 (nearestIdx StimLevels alpha),
      1 ≤ adaptHits 15 (nearestIdx StimLevels alpha) j) ∧
    (UniformOnWindow (nearestIdx StimLevels alpha) ↔
      2 ≤ nearestIdx StimLevels alpha ∧ nearestIdx StimLevels alpha ≤ 12) := by
  have h : ∀ n, n < 15 →
      ((∀ j ∈ clampedWindow 15 n, 1 ≤ adaptHits 15 n j) ∧
       (UniformOnWindow n ↔ 2 ≤ n ∧ n ≤ 12)) := by decide
  exact h _ (nearestIdx_lt alpha)

/-- Claim C2 amended, witness at alpha = 7: index 5 of the interior
window has positive probability and the window is uniform. -/
theorem adaptive_window_uniform_iff_witness :
    1 ≤ adaptHits 15 (nearestIdx StimLevels 7) 5 ∧
    UniformOnWindow (nearestIdx StimLevels 7) :=
  ⟨(adaptive_window_uniform_iff 7).1 5 (by with_unfolding_all decide),
   (adaptive_window_uniform_iff 7).2.mpr (by with_unfolding_all decide)⟩

/-- Claim C3: a scored trial adds exactly 1 to Total at the index of
abs(a - b), and adds to NumCorrect there exactly 1 when the choice equals
the ground truth, 0.5 when the ground truth is Equal, and 0 otherwise. -/
theorem scorer_increments (a b : ℚ) (ch : Side) (NC T : List ℚ)
    (hNC : NC.length = 15) (hT : T.length = 15)
    (i : ℕ) (hi : i < 15) (hlev : StimLevels.getD i 0 = |a - b|) :
    (UpdateResultsVariablesByChoice a b ch NC T).2.getD i 0 = T.getD i 0 + 1 ∧
    (UpdateResultsVariablesByChoice a b ch NC T).1.getD i 0 =
      NC.getD i 0 +
        (if groundTruth a b = truthOfSide ch then 1
         else if groundTruth a b = Truth.Equal then (1/2 : ℚ) else 0) := by
  constructor
  · rw [scorer_total_getD a b ch NC T hT i hi, if_pos hlev]
  · rw [scorer_nc_getD a b ch NC T hNC i hi, if_pos hlev]

/-- Claim C3, witness: pair (160, 150) with choice A at level index 10. -/
theorem scorer_increments_witness :
    (UpdateResultsVariablesByChoice 160 150 Side.A
      (List.replicate 15 0) (List.replicate 15 0)).2.getD 10 0 =
      (List.replicate 15 (0:ℚ)).getD 10 0 + 1 ∧
    (UpdateResultsVariablesByChoice 160 150 Side.A
      (List.replicate 15 0) (List.replicate 15 0)).1.getD 10 0 =
      (List.replicate 15 (0:ℚ)).getD 10 0 +
        (if groundTruth 160 150 = truthOfSide Side.A then 1
         else if groundTruth 160 150 = Truth.Equal then (1/2 : ℚ) else 0) :=
  scorer_increments 160 150 Side.A (List.replicate 15 0) (List.replicate 15 0)
    (by simp) (by simp) 10 (by norm_num) (by with_unfolding_all decide)

/-- Claim C4, evaluation at the failing input: after an empty click
followed by a scored click, the trial counter is 2 but the Total vector
sums to 1, so sum(Total) = counter fails on a reachable state; the claim
states the invariant for every reachable state including those reached
through empty clicks. -/
theorem empty_click_breaks_total_invariant :
    (runClicks (initState 0 Side.A) [emptyClick, validClickA]).counter = 2 ∧
    (runClicks (initState 0 Side.A) [emptyClick, validClickA]).Total.sum = 1 := by
  with_unfolding_all decide

/-- Claim C5: on every reachable session state, NumCorrect[i] stays
between 0 and Total[i] for every level index i. -/
theorem history_bounds (s : SessionState) (hs : Reachable s) (i : ℕ) (hi : i < 15) :
    0 ≤ s.NumCorrect.getD i 0 ∧ s.NumCorrect.getD i 0 ≤ s.Total.getD i 0 :=
  (reachable_histInv s hs).2.2 i hi

/-- Claim C5, witness: the state after one scored click at level 0. -/
theorem history_bounds_witness :
    0 ≤ (runClicks (initState 0 Side.A) [validClickA]).NumCorrect.getD 0 0 ∧
    (runClicks (initState 0 Side.A) [validClickA]).NumCorrect.getD 0 0 ≤
      (runClicks (initState 0 Side.A) [validClickA]).Total.getD 0 0 :=
  history_bounds _ ⟨0, Side.A, [validClickA], rfl⟩ 0 (by norm_num)

/-- Claim C6, evaluation at the failing input: after 29 valid clicks and
one empty click the counter equals MaxTrials = 30 yet the session is not
finished, and one more valid click finishes it with counter 31; the claim
states that Finished is reached exactly when the counter equals
MaxTrials, never before and never after. -/
theorem finish_misses_maxtrials :
    MaxTrials = 30 ∧
    (runClicks (initState 0 Side.A) (clicks29 ++ [emptyClick])).counter = 30 ∧
    (runClicks (initState 0 Side.A) (clicks29 ++ [emptyClick])).finished = false ∧
    (runClicks (initState 0 Side.A) (clicks29 ++ [emptyClick, validClickA])).counter = 31 ∧
    (runClicks (initState 0 Side.A) (clicks29 ++ [emptyClick, validClickA])).finished = true := by
  with_unfolding_all decide

/-- Claim C7: for every alpha and every jitter draw, the selected
ADAPTIVE index is inside [0, L-1] and within 2 of the index nearest to
alpha; the clamping never produces an out-of-range index. -/
theorem adaptive_index_in_range (alpha : ℚ) (r : Fin 5) :
    adaptIdx 15 (nearestIdx StimLevels alpha) r < 15 ∧
    ((adaptIdx 15 (nearestIdx StimLevels alpha) r : ℤ)
      - (nearestIdx StimLevels alpha : ℤ)).natAbs ≤ 2 := by
  have h : ∀ n, n < 15 → ∀ r2 : Fin 5,
      adaptIdx 15 n r2 < 15 ∧ ((adaptIdx 15 n r2 : ℤ) - (n : ℤ)).natAbs ≤ 2 := by decide
  exact h (nearestIdx StimLevels alpha) (nearestIdx_lt alpha) r

/-- Claim C8: past the warm-up phase, a failed fit makes the selector
return exactly the injected uniform draw over [0, L-1] (the value is the
draw itself, is in range, agrees with the WARMUP branch on the same draw,
and each index has exactly one preimage among the 15 draws). -/
theorem fit_failure_uniform_fallback (c : ℕ) (hc : ¬ ((c : ℚ) < MinTrials))
    (i : Fin 15) (r : Fin 5) :
    GetNextStimIndex c FitResult.failure i r = (i : ℕ) ∧
    GetNextStimIndex c FitResult.failure i r < 15 ∧
    (∀ cw : ℕ, ((cw : ℚ) < MinTrials) →
      GetNextStimIndex cw FitResult.failure i r = GetNextStimIndex c FitResult.failure i r) ∧
    (∀ j : ℕ, j < 15 →
      ((List.finRange 15).countP
        (fun i2 => GetNextStimIndex c FitResult.failure i2 r == j)) = 1) := by
  have hval : ∀ i2 : Fin 15, GetNextStimIndex c FitResult.failure i2 r = (i2 : ℕ) := by
    intro i2
    unfold GetNextStimIndex
    rw [if_neg hc]
  refine ⟨hval i, ?_, ?_, ?_⟩
  · rw [hval i]
    exact i.isLt
  · intro cw hcw
    rw [hval i]
    unfold GetNextStimIndex
    rw [if_pos hcw]
  · intro j hj
    have hcount : ∀ j2, j2 < 15 →
        ((List.finRange 15).countP (fun i2 : Fin 15 => ((i2 : ℕ) == j2))) = 1 := by decide
    calc (List.finRange 15).countP (fun i2 => GetNextStimIndex c FitResult.failure i2 r == j)
        = (List.finRange 15).countP (fun i2 : Fin 15 => ((i2 : ℕ) == j)) := by
          apply List.countP_congr
          intro x _
          rw [hval x]
      _ = 1 := hcount j hj

/-- Claim C8, witness at counter 9 (the first ADAPTIVE trial). -/
theorem fit_failure_uniform_fallback_witness :
    GetNextStimIndex 9 FitResult.failure 3 0 = ((3 : Fin 15) : ℕ) :=
  (fit_failure_uniform_fallback 9 (by with_unfolding_all decide) 3 0).1

/-- Claim C9: both generated magnitudes equal the baseline except that
the side given by the coin flip gets the increment added, and a zero
increment yields two equal magnitudes. -/
theorem generate_pair_one_side (base add : ℚ) (c : Side) :
    NewLinesLengths base add c =
      (if c = Side.A then (base + add, base) else (base, base + add)) ∧
    (add = 0 → NewLinesLengths base add c = (base, base)) := by
  cases c with
  | A =>
    refine ⟨by simp [NewLinesLengths], ?_⟩
    intro h0
    simp [NewLinesLengths, h0]
  | B =>
    refine ⟨by simp [NewLinesLengths], ?_⟩
    intro h0
    simp [NewLinesLengths, h0]

/-- Claim C9, witness: zero increment on side B yields an equal pair. -/
theorem generate_pair_one_side_witness :
    NewLinesLengths 150 0 Side.B = (150, 150) :=
  (generate_pair_one_side 150 0 Side.B).2 rfl

/-- Claim C10: a click leaves Total and NumCorrect unchanged at every
index whose level differs from abs(a - b) of the last presented pair, and
never decreases any entry of either vector. -/
theorem scorer_frame_monotone (s : SessionState) (hs : Reachable s) (e : Click) :
    (∀ j, j < 15 →
      StimLevels.getD j 0 ≠ |s.lineA.getLastD 0 - s.lineB.getLastD 0| →
      (NextCallback s e).Total.getD j 0 = s.Total.getD j 0 ∧
      (NextCallback s e).NumCorrect.getD j 0 = s.NumCorrect.getD j 0) ∧
    (∀ j, s.Total.getD j 0 ≤ (NextCallback s e).Total.getD j 0 ∧
          s.NumCorrect.getD j 0 ≤ (NextCallback s e).NumCorrect.getD j 0) := by
  obtain ⟨hNC, hT, hB⟩ := reachable_histInv s hs
  rcases nextCallback_hist s e with ⟨h1, h2⟩ | ⟨ch, _, h1, h2⟩
  · constructor
    · intro j _ _
      rw [h1, h2]
      exact ⟨rfl, rfl⟩
    · intro j
      rw [h1, h2]
      exact ⟨le_refl _, le_refl _⟩
  · have hlen := scorer_lengths (s.lineA.getLastD 0) (s.lineB.getLastD 0) ch
      s.NumCorrect s.Total hNC hT
    constructor
    · intro j hj hne
      rw [h1, h2, scorer_nc_getD _ _ _ _ _ hNC j hj, scorer_total_getD _ _ _ _ _ hT j hj,
        if_neg hne, if_neg hne]
      exact ⟨rfl, rfl⟩
    · intro j
      by_cases hj : j < 15
      · rw [h1, h2, scorer_nc_getD _ _ _ _ _ hNC j hj, scorer_total_getD _ _ _ _ _ hT j hj]
        by_cases hcnd : StimLevels.getD j 0 = |s.lineA.getLastD 0 - s.lineB.getLastD 0|
        · rw [if_pos hcnd, if_pos hcnd]
          have hinc := scoreInc_nonneg (s.lineA.getLastD 0) (s.lineB.getLastD 0) ch
          constructor
          · linarith
          · linarith
        · rw [if_neg hcnd, if_neg hcnd]
          exact ⟨le_refl _, le_refl _⟩
      · have hj15 : 15 ≤ j := le_of_not_lt hj
        have hot : s.Total.getD j 0 = 0 :=
          List.getD_eq_default _ _ (by rw [hT]; exact hj15)
        have hon : s.NumCorrect.getD j 0 = 0 :=
          List.getD_eq_default _ _ (by rw [hNC]; exact hj15)
        have hnt : (NextCallback s e).Total.getD j 0 = 0 := by
          rw [h2]
          exact List.getD_eq_default _ _ (by rw [hlen.2]; exact hj15)
        have hnn : (NextCallback s e).NumCorrect.getD j 0 = 0 := by
          rw [h1]
          exact List.getD_eq_default _ _ (by rw [hlen.1]; exact hj15)
        rw [hot, hon, hnt, hnn]
        exact ⟨le_refl _, le_refl _⟩

/-- Claim C10, witness: one scored click never decreases Total[3]. -/
theorem scorer_frame_monotone_witness :
    (initState 0 Side.A).Total.getD 3 0 ≤
      (NextCallback (initState 0 Side.A) validClickA).Total.getD 3 0 :=
  ((scorer_frame_monotone (initState 0 Side.A) ⟨0, Side.A, [], rfl⟩ validClickA).2 3).1

end LinesJND

